import Mathlib

/-!
Verification of the Voice-Cloning repository's audio normalization and
voice-clone orchestration pipeline, as specified in the project spec.

This file shallowly embeds the algorithmically relevant functions of
`backend/word_trimming.py`, `backend/generate.py` and
`backend/generate_video.py` and proves (or refutes) the spec's claims
about them.

Modelling conventions:
* Python floats are modelled as exact rationals (`ℚ`); all comparisons in
  the embedded code are order comparisons for which this is faithful.
* External processes (ffmpeg, ffprobe, the OpenVoice CLI) are modelled by
  oracle environments supplying each invocation's outcome; theorems
  quantify over all oracle outcomes.
* Python exceptions are modelled explicitly: fallible steps return values
  of sum types and `try/except` blocks become case analysis, so "the
  function raises to its caller" is a definable observable.
* The filesystem is modelled as reliable: copying an existing file and
  creating directories succeed.
-/

namespace VC

/-! ## Python string primitives (ASCII fragment)

The transcripts and error messages in all claims are ASCII.  `str.lower`
is modelled on the ASCII range, `\s` by Python's whitespace class, and
`\w` by letters/digits/underscore (any non-ASCII character counts as a
word character, which agrees with Python on the Devanagari letters the
source cares about). -/

def pyLowerChar (c : Char) : Char :=
  if 'A' ≤ c ∧ c ≤ 'Z' then Char.ofNat (c.toNat + 32) else c

def pyLowerStr (s : String) : String := ⟨s.data.map pyLowerChar⟩

def pyIsSpace (c : Char) : Bool :=
  c = ' ' || c = '\t' || c = '\n' || c = '\x0d' || c = '\x0c' || c = '\x0b'

def pyIsWordChar (c : Char) : Bool :=
  c.isAlpha || (('0' ≤ c && c ≤ '9') : Bool) || c = '_' || 128 ≤ c.toNat

/-- Python `str.strip()`: drop leading and trailing whitespace. -/
def pyStrip (cs : List Char) : List Char :=
  ((cs.dropWhile (pyIsSpace ·)).reverse.dropWhile (pyIsSpace ·)).reverse

/-- Python `str.split()`: split on whitespace runs, dropping empty pieces. -/
def splitWsAux : List Char → List Char → List String
  | [], cur => if cur.isEmpty then [] else [⟨cur.reverse⟩]
  | c :: cs, cur =>
    if pyIsSpace c then
      if cur.isEmpty then splitWsAux cs [] else ⟨cur.reverse⟩ :: splitWsAux cs []
    else splitWsAux cs (c :: cur)

def splitWs (s : String) : List String := splitWsAux s.data []

/-- `startsWithL needle hay`: `needle` is an initial segment of `hay`. -/
def startsWithL : List Char → List Char → Bool
  | [], _ => true
  | _ :: _, [] => false
  | n :: ns, h :: hs => n = h && startsWithL ns hs

/-- `containsL needle hay`: Python's substring test `needle in hay`. -/
def containsL (needle : List Char) : List Char → Bool
  | [] => startsWithL needle []
  | c :: hs => startsWithL needle (c :: hs) || containsL needle hs

def strContains (hay needle : String) : Bool := containsL needle.data hay.data

/-- Python string `<` (lexicographic on code points). -/
def strLtL : List Char → List Char → Bool
  | [], [] => false
  | [], _ :: _ => true
  | _ :: _, [] => false
  | a :: xs, b :: ys =>
    if a.toNat < b.toNat then true
    else if a.toNat = b.toNat then strLtL xs ys else false

/-! ## difflib: `SequenceMatcher.ratio` and `get_close_matches`

The word lists in play are far below difflib's autojunk limit (200
elements), so no element is junk and `find_longest_match` reduces to:
among all maximal matching runs, the one starting earliest in `a`, then
earliest in `b`.  `ratio` is `2*M/T` where `M` sums the sizes of the
recursively chosen matching blocks and `T` the two lengths. -/

/-- Length of the common initial run of two character lists. -/
def matchRun : List Char → List Char → ℕ
  | x :: xs, y :: ys => if x = y then matchRun xs ys + 1 else 0
  | _, _ => 0

/-- `find_longest_match` (junk-free case): the first `(i, j)` in
row-major order attaining the maximal run length. -/
def bestMatch (a b : List Char) : ℕ × ℕ × ℕ :=
  ((List.range a.length).flatMap fun i =>
    (List.range b.length).map fun j => (i, j, matchRun (a.drop i) (b.drop j))).foldl
    (fun best c => if best.2.2 < c.2.2 then c else best) (0, 0, 0)

/-- Total size of `get_matching_blocks`: recursively take the longest
match and recurse on both sides.  `fuel = |a| + |b|` always suffices. -/
def matchedTotal : ℕ → List Char → List Char → ℕ
  | 0, _, _ => 0
  | fuel + 1, a, b =>
    let m := bestMatch a b
    if m.2.2 = 0 then 0
    else
      matchedTotal fuel (a.take m.1) (b.take m.2.1) + m.2.2 +
        matchedTotal fuel (a.drop (m.1 + m.2.2)) (b.drop (m.2.1 + m.2.2))

/-- `SequenceMatcher(None, a, b).ratio()`. -/
def seqRatio (a b : String) : ℚ :=
  let la := a.data.length
  let lb := b.data.length
  if la + lb = 0 then 1
  else 2 * (matchedTotal (la + lb) a.data b.data : ℚ) / ((la : ℚ) + (lb : ℚ))

/-- Comparison used by `heapq.nlargest` on `(ratio, word)` pairs:
`x` strictly greater than `y` as a Python tuple. -/
def rankGt (x y : ℚ × String) : Bool :=
  if x.1 = y.1 then strLtL y.2.data x.2.data else decide (y.1 < x.1)

/-- Stable descending insertion (earlier list elements win ties). -/
def insertRanked (x : ℚ × String) : List (ℚ × String) → List (ℚ × String)
  | [] => [x]
  | y :: ys => if rankGt y x then y :: insertRanked x ys else x :: y :: ys

def sortRanked (l : List (ℚ × String)) : List (ℚ × String) := l.foldr insertRanked []

/-- `difflib.get_close_matches(word, possibilities, n, cutoff)`: the
candidates with `ratio ≥ cutoff`, best (highest `(ratio, word)` tuple)
first, truncated to `n`.  The `real_quick_ratio`/`quick_ratio` guards
are upper bounds of `ratio` and hence redundant for the result. -/
def get_close_matches (word : String) (possibilities : List String) (n : ℕ)
    (cutoff : ℚ) : List String :=
  let scored := possibilities.filterMap fun x =>
    let r := seqRatio x word
    if cutoff ≤ r then some (r, x) else none
  ((sortRanked scored).take n).map (·.2)

/-! ## `word_trimming.trim_audio_by_word`

The transcript (whisper's word list with start/end seconds) and the
pydub audio length in milliseconds are the function's external inputs;
everything after transcription is embedded directly. -/

structure TWord where
  word : String
  start : ℚ
  stop : ℚ
deriving DecidableEq, Repr, Inhabited

inductive Strategy
  | repeated
  | nameMatch
  | middle
deriving DecidableEq, Repr

structure Window where
  start : ℚ
  stop : ℚ
  strategy : Strategy
deriving DecidableEq, Repr

inductive TrimResult
  | noWordsError
  | window (w : Window)
deriving DecidableEq, Repr

/-- `re.sub(r'[^\w\s]', '', word.lower().strip())`. -/
def normalizeWord (w : String) : String :=
  ⟨(pyStrip (w.data.map pyLowerChar)).filter fun c => pyIsWordChar c || pyIsSpace c⟩

/-- `normalized_words.index(x, start)` (the uses in the source always
search for a present element). -/
def idxFrom (l : List String) (x : String) (start : ℕ) : ℕ :=
  start + (l.drop start).indexOf x

/-- Strategy 1 loop: for each `i` ascending, the single best
`get_close_matches` hit with cutoff 0.8 among the later words; on a hit,
the window is (end of word `i`, start of the earliest occurrence of the
matched string after `i`). -/
def strat1 (ws : List TWord) (norm : List String) : ℕ → ℕ → Option (ℚ × ℚ)
  | 0, _ => none
  | fuel + 1, i =>
    if i < norm.length then
      let word1 := norm.getD i ""
      if word1 = "" then strat1 ws norm fuel (i + 1)
      else
        match get_close_matches word1 (norm.drop (i + 1)) 1 (4 / 5) with
        | [] => strat1 ws norm fuel (i + 1)
        | word2 :: _ =>
          let j := idxFrom norm word2 (i + 1)
          some ((ws.getD i default).stop, (ws.getD j default).start)
    else none

/-- Strategy 2 loop: for each token of the lowered target name, the
`get_close_matches` hits with cutoff 0.6 over the whole word list; the
first hit's earliest occurrence wins, with a 0.5 s buffer on each side
(clamped below by 0). -/
def strat2 (ws : List TWord) (norm : List String) : List String → Option (ℚ × ℚ)
  | [] => none
  | t :: ts =>
    match get_close_matches t norm 3 (3 / 5) with
    | [] => strat2 ws norm ts
    | m :: _ =>
      let w := ws.getD (norm.indexOf m) default
      some (max 0 (w.start - 1 / 2), w.stop + 1 / 2)

/-- `trim_audio_by_word(audio_path, target_name, output_path)` after
transcription: raises `ValueError` on an empty transcript, otherwise
strategy 1 (repeated similar words), strategy 2 (name match), then the
middle-segment fallback. -/
def trim_audio_by_word (transcript : List TWord) (target_name : String)
    (audioLenMs : ℕ) : TrimResult :=
  if transcript.isEmpty then .noWordsError
  else
    let norm := transcript.map fun w => normalizeWord w.word
    match strat1 transcript norm norm.length 0 with
    | some p => .window ⟨p.1, p.2, .repeated⟩
    | none =>
      match strat2 transcript norm (splitWs (pyLowerStr target_name)) with
      | some p => .window ⟨p.1, p.2, .nameMatch⟩
      | none =>
        let total : ℚ := (audioLenMs : ℚ) / 1000
        let seg := min 3 (total * (2 / 5))
        let s := (total - seg) / 2
        .window ⟨s, s + seg, .middle⟩

/-! ## Supporting lemmas about the trimming model -/

theorem mem_insertRanked (x : ℚ × String) :
    ∀ (l : List (ℚ × String)) (y : ℚ × String), y ∈ insertRanked x l → y = x ∨ y ∈ l := by
  intro l
  induction l with
  | nil =>
    intro y h
    simp only [insertRanked, List.mem_singleton] at h
    exact Or.inl h
  | cons z zs ih =>
    intro y h
    simp only [insertRanked] at h
    split at h
    · rcases List.mem_cons.mp h with h1 | h2
      · exact Or.inr (List.mem_cons.mpr (Or.inl h1))
      · rcases ih y h2 with h3 | h4
        · exact Or.inl h3
        · exact Or.inr (List.mem_cons.mpr (Or.inr h4))
    · rcases List.mem_cons.mp h with h1 | h2
      · exact Or.inl h1
      · exact Or.inr h2

theorem mem_sortRanked (l : List (ℚ × String)) (y : ℚ × String) :
    y ∈ sortRanked l → y ∈ l := by
  induction l with
  | nil => simp [sortRanked]
  | cons z zs ih =>
    intro h
    have h2 : y ∈ insertRanked z (sortRanked zs) := h
    rcases mem_insertRanked z (sortRanked zs) y h2 with h3 | h4
    · exact List.mem_cons.mpr (Or.inl h3)
    · exact List.mem_cons.mpr (Or.inr (ih h4))

theorem mem_get_close_matches (w : String) (poss : List String) (n : ℕ) (c : ℚ)
    (s : String) : s ∈ get_close_matches w poss n c → s ∈ poss := by
  intro h
  simp only [get_close_matches, List.mem_map] at h
  obtain ⟨p, hp, hps⟩ := h
  have hp2 := List.mem_of_mem_take hp
  have hp3 := mem_sortRanked _ p hp2
  rw [List.mem_filterMap] at hp3
  obtain ⟨x, hx, hfx⟩ := hp3
  split at hfx
  · cases hfx
    exact hps ▸ hx
  · cases hfx

theorem strat1_spec (ws : List TWord) (norm : List String) (hlen : norm.length = ws.length) :
    ∀ (fuel i : ℕ) (p : ℚ × ℚ), strat1 ws norm fuel i = some p →
      ∃ (a b : ℕ) (ha : a < ws.length) (hb : b < ws.length), a < b ∧
        p.1 = (ws.get ⟨a, ha⟩).stop ∧ p.2 = (ws.get ⟨b, hb⟩).start := by
  intro fuel
  induction fuel with
  | zero => intro i p h; simp [strat1] at h
  | succ f ih =>
    intro i p h
    simp only [strat1] at h
    split at h
    case isTrue hi =>
      split at h
      case isTrue => exact ih (i + 1) p h
      case isFalse hw =>
        rcases hgc : get_close_matches (norm.getD i "") (norm.drop (i + 1)) 1 (4 / 5) with
          _ | ⟨word2, rest⟩
        · rw [hgc] at h
          exact ih (i + 1) p h
        · rw [hgc] at h
          have hmem : word2 ∈ norm.drop (i + 1) :=
            mem_get_close_matches _ _ _ _ _ (hgc ▸ List.mem_cons_self word2 rest)
          have hidx : (norm.drop (i + 1)).indexOf word2 < (norm.drop (i + 1)).length :=
            List.indexOf_lt_length.mpr hmem
          have hjlt : idxFrom norm word2 (i + 1) < norm.length := by
            have hdl : (norm.drop (i + 1)).length = norm.length - (i + 1) :=
              List.length_drop _ _
            have : i + 1 ≤ norm.length := hi
            simp only [idxFrom]
            omega
          have hilt : i < ws.length := hlen ▸ hi
          have hjlt2 : idxFrom norm word2 (i + 1) < ws.length := hlen ▸ hjlt
          have hij : i < idxFrom norm word2 (i + 1) := by
            simp only [idxFrom]; omega
          cases h
          exact ⟨i, idxFrom norm word2 (i + 1), hilt, hjlt2, hij,
            by rw [List.getD_eq_get _ _ hilt], by rw [List.getD_eq_get _ _ hjlt2]⟩
    case isFalse => simp at h

theorem strat2_spec (ws : List TWord) (norm : List String) (hlen : norm.length = ws.length) :
    ∀ (ts : List String) (p : ℚ × ℚ), strat2 ws norm ts = some p →
      ∃ (k : ℕ) (hk : k < ws.length),
        p.1 = max 0 ((ws.get ⟨k, hk⟩).start - 1 / 2) ∧
        p.2 = (ws.get ⟨k, hk⟩).stop + 1 / 2 := by
  intro ts
  induction ts with
  | nil => intro p h; simp [strat2] at h
  | cons t ts ih =>
    intro p h
    simp only [strat2] at h
    rcases hgc : get_close_matches t norm 3 (3 / 5) with _ | ⟨m, rest⟩
    · rw [hgc] at h
      exact ih p h
    · rw [hgc] at h
      have hmem : m ∈ norm :=
        mem_get_close_matches _ _ _ _ _ (hgc ▸ List.mem_cons_self m rest)
      have hidx : norm.indexOf m < norm.length := List.indexOf_lt_length.mpr hmem
      have hk : norm.indexOf m < ws.length := hlen ▸ hidx
      cases h
      exact ⟨norm.indexOf m, hk,
        by rw [List.getD_eq_get _ _ hk], by rw [List.getD_eq_get _ _ hk]⟩

theorem window_ne_of_stop_ne {a b : Window} (h : a.stop ≠ b.stop) :
    TrimResult.window a ≠ TrimResult.window b := by
  intro he
  cases he
  exact h rfl

/-! ## Claims about `trim_audio_by_word` -/

set_option maxRecDepth 100000

/-- C10: if transcription yields zero words, `trim_audio_by_word` raises
`ValueError` before attempting any window-selection strategy, and the
error is raised only in that case — every non-empty transcript yields a
window, so the middle-segment fallback is only reachable for non-empty
transcripts. -/
theorem C10_empty_transcript_value_error (ws : List TWord) (target : String)
    (lenMs : ℕ) : trim_audio_by_word ws target lenMs = .noWordsError ↔ ws = [] := by
  constructor
  · intro h
    cases hws : ws with
    | nil => rfl
    | cons w rest =>
      rw [hws] at h
      simp only [trim_audio_by_word, List.isEmpty_cons, Bool.false_eq_true,
        if_false] at h
      rcases h1 : strat1 (w :: rest) ((w :: rest).map fun w => normalizeWord w.word)
          ((w :: rest).map fun w => normalizeWord w.word).length 0 with _ | p
      · rw [h1] at h
        rcases h2 : strat2 (w :: rest) ((w :: rest).map fun w => normalizeWord w.word)
            (splitWs (pyLowerStr target)) with _ | p
        · rw [h2] at h
          cases h
        · rw [h2] at h
          cases h
      · rw [h1] at h
        cases h
  · intro h
    subst h
    rfl

/-- C6 (amended): for a well-formed transcript (non-negative,
non-overlapping, temporally ordered words within the asset duration),
whichever strategy fires yields a window with `0 ≤ start ≤ stop`;
`stop ≤ duration` holds for the repeated-word and middle strategies, and
the name-match strategy can overshoot the duration by at most its 0.5 s
buffer.  (The claim's strict `start < end` and unconditional
`end ≤ duration` are refuted by `C6_counterexample`.) -/
theorem C6_trim_window_bounds (ws : List TWord) (target : String) (lenMs : ℕ)
    (hne : ws ≠ [])
    (hord : ws.Pairwise fun a b => a.stop ≤ b.start)
    (hwf : ∀ w ∈ ws, 0 ≤ w.start ∧ w.start ≤ w.stop ∧ w.stop ≤ (lenMs : ℚ) / 1000) :
    ∃ win, trim_audio_by_word ws target lenMs = .window win ∧
      0 ≤ win.start ∧ win.start ≤ win.stop ∧
      (win.strategy ≠ .nameMatch → win.stop ≤ (lenMs : ℚ) / 1000) ∧
      win.stop ≤ (lenMs : ℚ) / 1000 + 1 / 2 := by
  have hD : (0 : ℚ) ≤ (lenMs : ℚ) / 1000 := by positivity
  have hempty : ws.isEmpty = false := by
    cases ws with
    | nil => exact absurd rfl hne
    | cons a l => rfl
  simp only [trim_audio_by_word, hempty, Bool.false_eq_true, if_false]
  have hlen : (ws.map fun w => normalizeWord w.word).length = ws.length :=
    List.length_map _ _
  rcases h1 : strat1 ws (ws.map fun w => normalizeWord w.word)
      (ws.map fun w => normalizeWord w.word).length 0 with _ | p
  · rcases h2 : strat2 ws (ws.map fun w => normalizeWord w.word)
        (splitWs (pyLowerStr target)) with _ | p
    · -- middle fallback
      rw [h1, h2]
      have hseg0 : (0 : ℚ) ≤ min 3 ((lenMs : ℚ) / 1000 * (2 / 5)) :=
        le_min (by norm_num) (by positivity)
      have hsegT : min 3 ((lenMs : ℚ) / 1000 * (2 / 5)) ≤ (lenMs : ℚ) / 1000 :=
        le_trans (min_le_right _ _) (by linarith)
      refine ⟨_, rfl, ?_, ?_, ?_, ?_⟩ <;> dsimp only
      · linarith
      · linarith
      · intro _
        linarith
      · linarith
    · rw [h1, h2]
      obtain ⟨k, hk, hp1, hp2⟩ := strat2_spec ws _ hlen _ p h2
      obtain ⟨hs0, hse, hsD⟩ := hwf _ (ws.get_mem k hk)
      refine ⟨_, rfl, ?_, ?_, ?_, ?_⟩ <;> dsimp only <;> simp only [hp1, hp2]
      · exact le_max_left _ _
      · exact max_le (by linarith) (by linarith)
      · intro hstrat
        exact absurd rfl hstrat
      · linarith
  · rw [h1]
    obtain ⟨a, b, ha, hb, hab, hp1, hp2⟩ := strat1_spec ws _ hlen _ 0 p h1
    obtain ⟨ha0, hae, haD⟩ := hwf _ (ws.get_mem a ha)
    obtain ⟨hb0, hbe, hbD⟩ := hwf _ (ws.get_mem b hb)
    have horder : (ws.get ⟨a, ha⟩).stop ≤ (ws.get ⟨b, hb⟩).start :=
      List.pairwise_iff_get.mp hord ⟨a, ha⟩ ⟨b, hb⟩ hab
    refine ⟨_, rfl, ?_, ?_, ?_, ?_⟩ <;> dsimp only <;> simp only [hp1, hp2]
    · linarith
    · linarith
    · intro _
      linarith
    · linarith

/-- C6 counterexample: as stated, window containment fails on the code.
With two adjacent occurrences of the same word the repeated-word window
has `start = end` (not `start < end`), and with a matched name token at
the end of the audio the name-match window's end exceeds the asset
duration (1.5 s window end on a 1.0 s asset). -/
theorem C6_counterexample :
    trim_audio_by_word [⟨"naam", 0, 1 / 2⟩, ⟨"naam", 1 / 2, 1⟩] "x" 1000 =
      .window ⟨1 / 2, 1 / 2, .repeated⟩ ∧
    ¬ ((1 : ℚ) / 2 < 1 / 2) ∧
    trim_audio_by_word [⟨"xyz", 0, 1⟩] "xyz" 1000 =
      .window ⟨0, 3 / 2, .nameMatch⟩ ∧
    ¬ ((3 : ℚ) / 2 ≤ (1000 : ℚ) / 1000) :=
  ⟨by with_unfolding_all rfl, by norm_num, by with_unfolding_all rfl, by norm_num⟩

/-- C6 witness for `C6_trim_window_bounds` at a concrete one-word
transcript (where the middle fallback fires). -/
theorem C6_trim_window_bounds_witness :
    ∃ win, trim_audio_by_word [⟨"hello", 0, 1⟩] "x" 2000 = .window win ∧
      0 ≤ win.start ∧ win.start ≤ win.stop ∧
      (win.strategy ≠ .nameMatch → win.stop ≤ (2000 : ℚ) / 1000) ∧
      win.stop ≤ (2000 : ℚ) / 1000 + 1 / 2 :=
  C6_trim_window_bounds [⟨"hello", 0, 1⟩] "x" 2000 (by decide)
    (by simp) (by intro w hw; fin_cases hw <;> norm_num)

/-- C5 (amended): the repeated-word strategy scans `i` ascending and, at
the first `i` having any later word of similarity ≥ 0.8, selects
`difflib`'s best-ratio match (not the first qualifying pair) and the
earliest occurrence of that matched string after `i`; the window is
[end of word `i`, start of that occurrence].  For the claim's transcript
["namaskar"(0.0–0.5), "jay"(0.5–0.8), "nameskar"(2.0–2.5)] the selected
window is (0.5, 2.0), as claimed. -/
theorem C5_repeated_word_scenario :
    trim_audio_by_word
      [⟨"namaskar", 0, 1 / 2⟩, ⟨"jay", 1 / 2, 4 / 5⟩, ⟨"nameskar", 2, 5 / 2⟩]
      "x" 3000 = .window ⟨1 / 2, 2, .repeated⟩ := by
  with_unfolding_all rfl

/-- C5 counterexample: the strategy does not accept the first word pair
whose similarity exceeds 0.8.  Here the pair (0, 1) qualifies (ratio
7/8 > 0.8) but the code selects the later, more similar word at index 2
(ratio 1), producing window (1, 4) instead of the claimed (1, 2). -/
theorem C5_counterexample :
    trim_audio_by_word
      [⟨"aaaaaaaa", 0, 1⟩, ⟨"aaaaaaax", 2, 3⟩, ⟨"aaaaaaaa", 4, 5⟩] "x" 6000 =
      .window ⟨1, 4, .repeated⟩ ∧
    (4 : ℚ) / 5 < seqRatio "aaaaaaax" "aaaaaaaa" ∧
    ¬ (trim_audio_by_word
      [⟨"aaaaaaaa", 0, 1⟩, ⟨"aaaaaaax", 2, 3⟩, ⟨"aaaaaaaa", 4, 5⟩] "x" 6000 =
      .window ⟨1, 2, .repeated⟩) := by
  have h1 : trim_audio_by_word
      [⟨"aaaaaaaa", 0, 1⟩, ⟨"aaaaaaax", 2, 3⟩, ⟨"aaaaaaaa", 4, 5⟩] "x" 6000 =
      .window ⟨1, 4, .repeated⟩ := by with_unfolding_all rfl
  have h2 : seqRatio "aaaaaaax" "aaaaaaaa" = 7 / 8 := by with_unfolding_all rfl
  refine ⟨h1, ?_, ?_⟩
  · rw [h2]
    norm_num
  · rw [h1]
    exact window_ne_of_stop_ne (by norm_num)

/-- C9 (amended): within the repeated-word strategy the outer scan does
give priority to the earliest index `i` having a qualifying later word,
but among the qualifying later words the most similar one (highest
difflib ratio) is selected — not the earliest-occurring one — and then
its earliest occurrence after `i` is used; strategies are never
combined.  First conjunct: index 0's qualifying pair wins over the
strictly more similar later pair (1, 2).  Second conjunct: for a fixed
`i`, the most similar later word wins over an earlier qualifying one. -/
theorem C9_selection_rule :
    trim_audio_by_word
      [⟨"abcdefgh", 0, 1⟩, ⟨"abcdefgx", 2, 3⟩, ⟨"zzzz", 4, 5⟩, ⟨"zzzz", 6, 7⟩]
      "x" 8000 = .window ⟨1, 2, .repeated⟩ ∧
    trim_audio_by_word
      [⟨"bbbbbbbb", 0, 1⟩, ⟨"bbbbbbbx", 2, 3⟩, ⟨"bbbbbbbb", 4, 5⟩] "x" 6000 =
      .window ⟨1, 4, .repeated⟩ :=
  ⟨by with_unfolding_all rfl, by with_unfolding_all rfl⟩

/-- C9 counterexample: the earliest-occurring qualifying match does not
win within the repeated-word strategy.  For word 0 = "namaskar", the
word at index 1 ("namaskaar", ratio 16/17 ≈ 0.94) qualifies and occurs
first, but the code selects the exact duplicate at index 2 (ratio 1),
yielding window (1, 4) rather than (1, 2). -/
theorem C9_counterexample :
    trim_audio_by_word
      [⟨"namaskar", 0, 1⟩, ⟨"namaskaar", 2, 3⟩, ⟨"namaskar", 4, 5⟩] "x" 6000 =
      .window ⟨1, 4, .repeated⟩ ∧
    (4 : ℚ) / 5 < seqRatio "namaskaar" "namaskar" ∧
    ¬ (trim_audio_by_word
      [⟨"namaskar", 0, 1⟩, ⟨"namaskaar", 2, 3⟩, ⟨"namaskar", 4, 5⟩] "x" 6000 =
      .window ⟨1, 2, .repeated⟩) := by
  have h1 : trim_audio_by_word
      [⟨"namaskar", 0, 1⟩, ⟨"namaskaar", 2, 3⟩, ⟨"namaskar", 4, 5⟩] "x" 6000 =
      .window ⟨1, 4, .repeated⟩ := by with_unfolding_all rfl
  have h2 : seqRatio "namaskaar" "namaskar" = 16 / 17 := by with_unfolding_all rfl
  refine ⟨h1, ?_, ?_⟩
  · rw [h2]
    norm_num
  · rw [h1]
    exact window_ne_of_stop_ne (by norm_num)

/-! ## `generate.extend_short_audio`

The ffprobe duration query and the two ffmpeg invocations are external;
an `ExtendEnv` supplies their outcomes.  `probe = none` models a raised
`CalledProcessError` or unparsable `float()` input; the function's
single `try/except Exception` catches every internal failure and
returns the original path.  When the probed duration is exactly 0 the
source evaluates `min_duration / duration`, a Python float division by
zero, which raises `ZeroDivisionError`; the model records this in the
`divByZero` field (the exception is then caught by the outer handler). -/

structure ExtendEnv where
  /-- parsed `ffprobe` duration, `none` when the probe step raises -/
  probe : Option ℚ
  /-- primary concat-based ffmpeg call exits 0 -/
  concat : Bool
  /-- fallback aloop-based ffmpeg call exits 0 -/
  aloop : Bool
deriving DecidableEq, Repr

structure ExtendResult where
  /-- path returned to the caller -/
  out : String
  /-- a `ZeroDivisionError` was raised (and caught) internally -/
  divByZero : Bool
  /-- a new `<base>_extended.wav` file was produced -/
  extended : Bool
deriving DecidableEq, Repr

/-- Python `int()` on an exact rational: truncation toward zero. -/
def pyTrunc (q : ℚ) : ℤ := if 0 ≤ q then ⌊q⌋ else -⌊-q⌋

/-- `os.path.splitext(p)[0]`: everything before the last dot (the
source only ever passes names with a `.wav` extension). -/
def lastDotSplit : List Char → Option (List Char)
  | [] => none
  | c :: cs =>
    match lastDotSplit cs with
    | some rest => some (c :: rest)
    | none => if c = '.' then some [] else none

def splitextBase (p : String) : String :=
  match lastDotSplit p.data with
  | some pre => ⟨pre⟩
  | none => p

def extendedPath (p : String) : String := splitextBase p ++ "_extended.wav"

/-- `generate.extend_short_audio(audio_path, min_duration)`. -/
def extend_short_audio (env : ExtendEnv) (audio_path : String)
    (min_duration : ℚ) : ExtendResult :=
  match env.probe with
  | none => ⟨audio_path, false, false⟩
  | some duration =>
    if duration < min_duration then
      if duration = 0 then ⟨audio_path, true, false⟩
      else
        let _repeat_count : ℤ := pyTrunc (min_duration / duration + 1)
        if env.concat then ⟨extendedPath audio_path, false, true⟩
        else if env.aloop then ⟨extendedPath audio_path, false, true⟩
        else ⟨audio_path, false, false⟩
    else ⟨audio_path, false, false⟩

/-- Per-path oracle, for statements that apply the normalizer twice. -/
def extendFS (env : String → ExtendEnv) (p : String) (m : ℚ) : ExtendResult :=
  extend_short_audio (env p) p m

/-! ## `generate.clone_voice`

The chain: unconditional pre-normalization of both inputs, OpenVoice
online (timeout 120 s), a conditional OpenVoice offline retry (timeout
60 s) gated on network vocabulary in `str(CalledProcessError)`, a
conditional minimal clone gated on short-audio vocabulary, the
`simple_voice_cloning` chain (advanced module, enhanced ffmpeg, basic
pydub, copy of the TTS file), and the outer handler's final copy of the
TTS file.  Every `except` in the source catches `Exception`, so no
modelled failure escapes.  File copies succeed iff the source file
exists (reliable-filesystem convention). -/

/-- A raised Python exception, as visible to the handlers: whether it is
a `subprocess.CalledProcessError` and its `str()`. -/
inductive PyExc
  | cpe (msg : String)
  | other (msg : String)
deriving DecidableEq, Repr

def pyExcMsg : PyExc → String
  | .cpe m => m
  | .other m => m

/-- `str(CalledProcessError)` for a nonnegative exit status: stderr is
never part of it (and the source does not pass `capture_output`). -/
def strOfCalledProcessError (cmdRepr : String) (returncode : ℕ) : String :=
  "Command " ++ [Char.ofNat 39].asString ++ cmdRepr ++ [Char.ofNat 39].asString ++
    " returned non-zero exit status " ++ toString returncode ++ "."

/-- Python `repr` of a list of plain strings. -/
def pyReprStrList (l : List String) : String :=
  "[" ++ String.intercalate ", "
    (l.map fun s => [Char.ofNat 39].asString ++ s ++ [Char.ofNat 39].asString) ++ "]"

/-- Keywords checked (case-insensitively) before the offline retry. -/
def networkKeywords : List String :=
  ["localentrynotfound", "offlinemode", "cannot reach", "connection", "ssl",
    "certificate"]

/-- Keywords checked before `create_minimal_voice_clone`. -/
def shortAudioKeywords : List String :=
  ["too short", "assertionerror", "num_splits > 0"]

def matchesAny (kws : List String) (msg : String) : Bool :=
  kws.any fun k => strContains (pyLowerStr msg) k

structure CloneEnv where
  ttsExists : Bool
  refExists : Bool
  ttsNonEmpty : Bool
  extTts : ExtendEnv
  extRef : ExtendEnv
  /-- online OpenVoice outcome: `none` = exit 0 with output written -/
  online : Option PyExc
  /-- offline OpenVoice outcome -/
  offline : Option PyExc
  /-- `create_minimal_voice_clone` returns `True` (it catches its own
  exceptions and returns a bool) -/
  minimalOk : Bool
  /-- the advanced spectral module is importable and succeeds -/
  advancedOk : Bool
  /-- `enhanced_ffmpeg_voice_cloning` completes (it re-raises on error) -/
  enhancedOk : Bool
  /-- `basic_voice_cloning_fallback`'s pydub processing completes -/
  basicOk : Bool
deriving DecidableEq, Repr

inductive CloneStage
  | onlineOV
  | offlineOV
  | minimal
  | advanced
  | enhanced
  | basic
  | copyTts
  | copyOuter
  | noOutput
deriving DecidableEq, Repr

structure CloneResult where
  /-- an exception escapes `clone_voice` to its caller -/
  raised : Bool
  /-- the output path exists after the call returns -/
  outputExists : Bool
  outputNonEmpty : Bool
  /-- the stage that produced the output -/
  stage : CloneStage
  /-- the offline-mode OpenVoice retry was invoked -/
  offlineTried : Bool
  /-- `create_minimal_voice_clone` was invoked -/
  minimalTried : Bool
deriving DecidableEq, Repr

/-- The `simple_voice_cloning` call followed by the outer handler:
advanced module, then enhanced ffmpeg, then the basic fallback whose own
final recourse is `shutil.copy2(tts, output)`; a failure of that copy
propagates to `clone_voice`'s outer handler, which copies again and
swallows any failure. -/
def simpleChain (env : CloneEnv) (offTried minTried : Bool) : CloneResult :=
  if env.advancedOk then ⟨false, true, true, .advanced, offTried, minTried⟩
  else if env.enhancedOk then ⟨false, true, true, .enhanced, offTried, minTried⟩
  else if env.basicOk then ⟨false, true, true, .basic, offTried, minTried⟩
  else if env.ttsExists then
    ⟨false, true, env.ttsNonEmpty, .copyTts, offTried, minTried⟩
  else ⟨false, false, false, .noOutput, offTried, minTried⟩

/-- The `except Exception as openvoice_error` handler of `clone_voice`:
minimal clone on short-audio vocabulary, otherwise (or if the minimal
clone reports failure) the `simple_voice_cloning` fallback. -/
def afterOpenVoiceFailure (env : CloneEnv) (msg : String) (offTried : Bool) :
    CloneResult :=
  let minTried := matchesAny shortAudioKeywords msg
  if minTried && env.minimalOk then ⟨false, true, true, .minimal, offTried, true⟩
  else simpleChain env offTried minTried

/-- `generate.clone_voice(tts_wav_path, cloned_wav_path, reference_wav_path)`.
The two `extend_short_audio` calls run unconditionally before the first
OpenVoice attempt (their results feed the OpenVoice command line and do
not otherwise affect the outcome). -/
def clone_voice (env : CloneEnv) : CloneResult :=
  if env.ttsExists && env.refExists then
    let _extended_tts := extend_short_audio env.extTts "tts.wav" 3
    let _extended_ref := extend_short_audio env.extRef "ref.wav" 5
    match env.online with
    | none => ⟨false, true, true, .onlineOV, false, false⟩
    | some e =>
      match e with
      | .cpe msg =>
        if matchesAny networkKeywords msg then
          match env.offline with
          | none => ⟨false, true, true, .offlineOV, true, false⟩
          | some _ => afterOpenVoiceFailure env msg true
        else afterOpenVoiceFailure env msg false
      | .other msg => afterOpenVoiceFailure env msg false
  else if env.ttsExists then ⟨false, true, env.ttsNonEmpty, .copyOuter, false, false⟩
  else ⟨false, false, false, .noOutput, false, false⟩

/-! ## Claims about `clone_voice` and `extend_short_audio` -/

theorem simpleChain_ok (env : CloneEnv) (o m : Bool) (h1 : env.ttsExists = true)
    (h3 : env.ttsNonEmpty = true) :
    (simpleChain env o m).raised = false ∧
      (simpleChain env o m).outputExists = true ∧
      (simpleChain env o m).outputNonEmpty = true := by
  unfold simpleChain
  rw [h1, h3]
  split
  · exact ⟨rfl, rfl, rfl⟩
  split
  · exact ⟨rfl, rfl, rfl⟩
  split
  · exact ⟨rfl, rfl, rfl⟩
  split
  · exact ⟨rfl, rfl, rfl⟩
  next h =>
    exact absurd rfl h

theorem afterOpenVoiceFailure_ok (env : CloneEnv) (msg : String) (o : Bool)
    (h1 : env.ttsExists = true) (h3 : env.ttsNonEmpty = true) :
    (afterOpenVoiceFailure env msg o).raised = false ∧
      (afterOpenVoiceFailure env msg o).outputExists = true ∧
      (afterOpenVoiceFailure env msg o).outputNonEmpty = true := by
  unfold afterOpenVoiceFailure
  dsimp only
  split
  · exact ⟨rfl, rfl, rfl⟩
  · exact simpleChain_ok env o _ h1 h3

/-- C1: for existing (and non-empty) input files, `clone_voice` returns
normally for every oracle outcome of its external steps — every handler
catches `Exception` — and after it returns the output path holds an
existing, non-empty audio file, in the worst case the verbatim copy of
the TTS input made by the terminal fallback. -/
theorem C1_clone_voice_always_returns_output (env : CloneEnv)
    (h1 : env.ttsExists = true) (h2 : env.refExists = true)
    (h3 : env.ttsNonEmpty = true) :
    (clone_voice env).raised = false ∧ (clone_voice env).outputExists = true ∧
      (clone_voice env).outputNonEmpty = true := by
  unfold clone_voice
  rw [h1, h2]
  simp only [Bool.and_self, if_true]
  rcases env.online with _ | e
  · exact ⟨rfl, rfl, rfl⟩
  · rcases e with msg | msg
    · dsimp only
      split
      · rcases env.offline with _ | e2
        · exact ⟨rfl, rfl, rfl⟩
        · exact afterOpenVoiceFailure_ok env msg true h1 h3
      · exact afterOpenVoiceFailure_ok env msg false h1 h3
    · exact afterOpenVoiceFailure_ok env msg false h1 h3

/-- Oracle environment in which every cloning method fails: both probes
fail, OpenVoice online raises, and every fallback reports failure, so
only the terminal copy of the TTS input remains. -/
def envAllFail : CloneEnv :=
  ⟨true, true, true, ⟨none, false, false⟩, ⟨none, false, false⟩,
    some (.other "boom"), some (.other "boom"), false, false, false, false⟩

/-- C1 witness: the theorem applied to the all-failures environment; the
output is the terminal fallback's copy of the TTS file. -/
theorem C1_clone_voice_witness :
    ((clone_voice envAllFail).raised = false ∧
      (clone_voice envAllFail).outputExists = true ∧
      (clone_voice envAllFail).outputNonEmpty = true) ∧
    (clone_voice envAllFail).stage = CloneStage.copyTts :=
  ⟨C1_clone_voice_always_returns_output envAllFail rfl rfl rfl, rfl⟩

/-- The OpenVoice command line as rendered into
`str(CalledProcessError)` (Python formats the `cmd` list with `%s`). -/
def openVoiceCmdRepr : String :=
  pyReprStrList ["python", "-m", "openvoice_cli", "single", "-i",
    "tts_extended.wav", "-r", "ref_extended.wav", "-o", "cloned.wav"]

/-- The backend's stderr line from the spec's concrete scenario 4. -/
def hfStderr : String := "LocalEntryNotFound: cannot reach huggingface.co"

/-- Environment for the scenario: the online OpenVoice call exits 1
while printing `hfStderr` to the (uncaptured) stderr stream; the
exception object available to `clone_voice` is the bare
`CalledProcessError`. -/
def envHfFailure : CloneEnv :=
  ⟨true, true, true, ⟨some 4, true, true⟩, ⟨some 6, true, true⟩,
    some (.cpe (strOfCalledProcessError openVoiceCmdRepr 1)), none,
    false, false, true, true⟩

/-- C2: the network-failure classification examines only
`str(CalledProcessError)` — `"Command '[...]' returned non-zero exit
status 1."` — which never contains the backend's stderr (the source does
not capture it).  The claimed scenario fails: the stderr line
`"LocalEntryNotFound: cannot reach huggingface.co"` does match the
network vocabulary, but the string actually classified does not, so the
offline-mode retry is skipped and the chain falls through to the
spectral fallback instead. -/
theorem C2_network_classification_dead :
    matchesAny networkKeywords hfStderr = true ∧
    matchesAny networkKeywords (strOfCalledProcessError openVoiceCmdRepr 1) = false ∧
    (clone_voice envHfFailure).offlineTried = false ∧
    (clone_voice envHfFailure).stage = CloneStage.enhanced := by
  refine ⟨by decide, by decide, ?_, ?_⟩
  · with_unfolding_all rfl
  · with_unfolding_all rfl

/-- C3 counterexample: when the probe reports duration 0 the code does
evaluate `min_duration / duration` — a float division by zero raising
`ZeroDivisionError` — rather than treating `≤ 0` as a probe failure; and
when the probe reports a negative duration, extension is attempted (the
ffmpeg concat call runs and its output path is returned), not skipped. -/
theorem C3_counterexample :
    extend_short_audio ⟨some 0, true, true⟩ "tts.wav" 3 = ⟨"tts.wav", true, false⟩ ∧
    (extend_short_audio ⟨some 0, true, true⟩ "tts.wav" 3).divByZero = true ∧
    extend_short_audio ⟨some (-1), true, true⟩ "tts.wav" 3 =
      ⟨extendedPath "tts.wav", false, true⟩ ∧
    extendedPath "tts.wav" ≠ "tts.wav" := by
  refine ⟨?_, ?_, ?_, by decide⟩
  · with_unfolding_all rfl
  · with_unfolding_all rfl
  · with_unfolding_all rfl

/-- C3 (amended): `extend_short_audio` never fails outward — for every
oracle outcome it returns either the original path or the produced
extended file; a failed probe returns the original unchanged; a probed
duration of exactly 0 returns the original unchanged, but only via a
raised-and-caught `ZeroDivisionError` from the repeat-count division
(recorded by `divByZero`), not by classifying `≤ 0` as a probe
failure. -/
theorem C3_extend_never_fails_outward (env : ExtendEnv) (p : String) (m : ℚ)
    (hm : 0 < m) :
    ((extend_short_audio env p m).out = p ∨
      ((extend_short_audio env p m).out = extendedPath p ∧
        (extend_short_audio env p m).extended = true)) ∧
    (env.probe = none → extend_short_audio env p m = ⟨p, false, false⟩) ∧
    (env.probe = some 0 → extend_short_audio env p m = ⟨p, true, false⟩) := by
  refine ⟨?_, ?_, ?_⟩
  · unfold extend_short_audio
    rcases hp : env.probe with _ | d
    · exact Or.inl rfl
    · dsimp only
      split
      · split
        · exact Or.inl rfl
        · split
          · exact Or.inr ⟨rfl, rfl⟩
          · split
            · exact Or.inr ⟨rfl, rfl⟩
            · exact Or.inl rfl
      · exact Or.inl rfl
  · intro h
    unfold extend_short_audio
    rw [h]
  · intro h
    unfold extend_short_audio
    rw [h]
    dsimp only
    rw [if_pos hm, if_pos rfl]

/-- C3 witness: the amended theorem applied at the zero-duration probe
with threshold 3. -/
theorem C3_extend_witness :
    ((extend_short_audio ⟨some 0, true, true⟩ "a.wav" 3).out = "a.wav" ∨
      ((extend_short_audio ⟨some 0, true, true⟩ "a.wav" 3).out = extendedPath "a.wav" ∧
        (extend_short_audio ⟨some 0, true, true⟩ "a.wav" 3).extended = true)) ∧
    ((⟨some 0, true, true⟩ : ExtendEnv).probe = none →
      extend_short_audio ⟨some 0, true, true⟩ "a.wav" 3 = ⟨"a.wav", false, false⟩) ∧
    ((⟨some 0, true, true⟩ : ExtendEnv).probe = some 0 →
      extend_short_audio ⟨some 0, true, true⟩ "a.wav" 3 = ⟨"a.wav", true, false⟩) :=
  C3_extend_never_fails_outward ⟨some 0, true, true⟩ "a.wav" 3 (by norm_num)

/-- C4: when the probed duration is at least the minimum, the normalizer
returns its input unchanged — same path, no file written, no internal
error — and applying it a second time to the result is the identical
call, so the composition equals a single application (byte-identical
path). -/
theorem C4_extend_idempotent (env : String → ExtendEnv) (p : String) (m d : ℚ)
    (hp : (env p).probe = some d) (hm : m ≤ d) :
    extendFS env p m = ⟨p, false, false⟩ ∧
      extendFS env (extendFS env p m).out m = extendFS env p m := by
  have h1 : extendFS env p m = ⟨p, false, false⟩ := by
    unfold extendFS extend_short_audio
    rw [hp]
    dsimp only
    rw [if_neg (not_lt.mpr hm)]
  refine ⟨h1, ?_⟩
  rw [h1]
  exact h1

/-- C4 witness: a 4-second asset against a 3-second minimum (the spec's
concrete scenario 2). -/
theorem C4_extend_idempotent_witness :
    extendFS (fun _ => ⟨some 4, true, true⟩) "a.wav" 3 = ⟨"a.wav", false, false⟩ ∧
      extendFS (fun _ => ⟨some 4, true, true⟩)
        (extendFS (fun _ => ⟨some 4, true, true⟩) "a.wav" 3).out 3 =
        extendFS (fun _ => ⟨some 4, true, true⟩) "a.wav" 3 :=
  C4_extend_idempotent (fun _ => ⟨some 4, true, true⟩) "a.wav" 3 4 rfl (by norm_num)

/-! ## `generate_video.generate_video_for_name`, silence detection

`pydub.silence.detect_silence(audio, min_silence_len=500, silence_thresh
= audio.dBFS - 16)` slides a 500 ms window over every millisecond
offset, records the starts whose window RMS is at or below the
threshold, and merges recorded starts into `[start, end]` ranges (a new
range begins only at a non-adjacent start whose gap exceeds the window
length).  The per-window RMS comparison against the dB-derived threshold
is irrational in general, so the model takes the per-window comparison
outcome (`isSilent`) as the audio's description; `windowMeanSqLe` shows
how such a predicate arises from per-millisecond energy data.
`generate_video_for_name` then discards ranges starting at or below
500 ms and splices 500 ms into the first remaining range. -/

/-- A window-silence predicate arising from per-millisecond mean-square
energy data: mean energy over `[i, i+minLen)` at or below the squared
threshold. -/
def windowMeanSqLe (msEnergy : List ℚ) (threshSq : ℚ) (minLen i : ℕ) : Bool :=
  decide (((msEnergy.drop i).take minLen).sum ≤ threshSq * minLen)

/-- The recorded silent window starts. -/
def silenceStarts (isSilent : ℕ → Bool) (segLen minLen : ℕ) : List ℕ :=
  if segLen < minLen then []
  else (List.range (segLen - minLen + 1)).filter isSilent

/-- pydub's merge loop (seek_step = 1): close a range only at a start
that is neither adjacent nor within `minLen` of the previous one. -/
def mergeAux (minLen curStart prev : ℕ) : List ℕ → List (ℕ × ℕ)
  | [] => [(curStart, prev + minLen)]
  | i :: rest =>
    if i ≠ prev + 1 ∧ prev + minLen < i then
      (curStart, prev + minLen) :: mergeAux minLen i i rest
    else mergeAux minLen curStart i rest

def mergeSilentRanges (minLen : ℕ) : List ℕ → List (ℕ × ℕ)
  | [] => []
  | s :: rest => mergeAux minLen s s rest

/-- `pydub.silence.detect_silence` over the window predicate. -/
def detect_silence (isSilent : ℕ → Bool) (segLen minLen : ℕ) : List (ℕ × ℕ) :=
  mergeSilentRanges minLen (silenceStarts isSilent segLen minLen)

inductive SpliceOutcome
  /-- `raise Exception("No silent region found in base audio!")` -/
  | noSilenceError
  /-- `silent_segments[0]` on the emptied, filtered list: `IndexError` -/
  | indexError
  /-- chosen splice start (ms) -/
  | point (ms : ℕ)
deriving DecidableEq, Repr

/-- The silence-selection steps of `generate_video_for_name`: detect
silence (500 ms minimum), raise if none at all, keep only runs starting
strictly after 500 ms, take the first and advance its start by 500 ms. -/
def splice_point (isSilent : ℕ → Bool) (segLen : ℕ) : SpliceOutcome :=
  let segs := detect_silence isSilent segLen 500
  if segs.isEmpty then .noSilenceError
  else
    match segs.filter fun s => 500 < s.1 with
    | [] => .indexError
    | s :: _ => .point (s.1 + 500)

/-- Window predicate of the spec's concrete scenario 5: a base track at
-20 dBFS, quiet elsewhere, with one 600 ms run below -36 dBFS (the
threshold, base - 16 dB) starting at 1.0 s in a 3 s track: exactly the
500 ms windows contained in [1000 ms, 1600 ms) pass the RMS test. -/
def scenario5Silent (i : ℕ) : Bool := decide (1000 ≤ i ∧ i ≤ 1100)

/-- Runs starting exactly at 500 ms and at 2000 ms. -/
def boundaryRunSilent (i : ℕ) : Bool :=
  decide ((500 ≤ i ∧ i ≤ 600) ∨ (2000 ≤ i ∧ i ≤ 2100))

/-- A single run starting at 0 ms (silence during the first 600 ms). -/
def leadingRunSilent (i : ℕ) : Bool := decide (i ≤ 100)

/-- C7 (amended): the splicer detects silence runs of minimum length
500 ms below base loudness - 16 dB, discards every run starting at or
before 500 ms (not only those starting strictly before), takes the
first remaining run and advances its start by 500 ms.  First conjunct:
the spec's scenario 5 (600 ms run at 1.0 s) gives splice point 1.5 s.
Second conjunct: a run starting exactly at 500 ms is discarded, so the
later run at 2.0 s is selected (splice 2.5 s). -/
theorem C7_splice_point_selection :
    splice_point scenario5Silent 3000 = .point 1500 ∧
    splice_point boundaryRunSilent 3000 = .point 2500 := by
  refine ⟨by decide, by decide⟩

/-- C7 counterexample: a silence run starting exactly at 500 ms does not
"start before 500 ms", so under the claim it should remain and be
selected (splice point 1000 ms); the code's `seg[0] > 500` filter
discards it and splices at 2500 ms instead. -/
theorem C7_counterexample :
    splice_point boundaryRunSilent 3000 ≠ .point 1000 ∧
    detect_silence boundaryRunSilent 3000 500 = [(500, 1100), (2000, 2600)] := by
  refine ⟨by decide, by decide⟩

/-- C8: when no silence at all lies below the threshold the splicer does
raise the deliberate "No silent region found" error; but on a track
whose only qualifying run starts at or before 500 ms the filtered list
is empty and `silent_segments[0]` raises an uncontrolled `IndexError`
instead — refuting "never crashes with any other uncontrolled
exception". -/
theorem C8_no_silence_crash :
    splice_point (fun _ => false) 3000 = .noSilenceError ∧
    splice_point leadingRunSilent 3000 = .indexError ∧
    SpliceOutcome.indexError ≠ SpliceOutcome.noSilenceError := by
  refine ⟨by decide, by decide, by decide⟩

end VC
